import Mathlib

/-!
Verification of the Wii remote driver core (src/wii-remote-driver.c).

The development shallowly embeds the driver's pure data path: the circular
buffer (`circ_buffer_write`, the `device_read` drain loop), the report
formatter (`perform_input_mapping`), the raw-event dispatcher
(`wii_raw_event`), the lifecycle callbacks (`wii_probe` / `wii_remove`) and
the status-request ioctl (`device_ioctl`).  Machine bytes are modelled as
`Nat` (all call sites pass values below 256), the buffer array as a
`List Char` of fixed length 1024, and kernel-log output as a list of
strings.  The `snprintf` staging buffers (256 and 64 bytes) never truncate —
the longest button entry is under 80 characters and the longest battery
entry under 14 — so formatting is embedded as plain string appends.
-/

set_option maxRecDepth 4000

namespace WiiDriver

/-- Capacity of the circular buffer (CIRC_BUFFER_SIZE in the source). -/
def CIRC_BUFFER_SIZE : Nat := 1024

/-- State of the driver's circular buffer: the byte array `circ_buffer`
together with the write cursor `head` and the read cursor `tail`. -/
structure CircState where
  buf : List Char
  head : Nat
  tail : Nat
  deriving DecidableEq, Repr

/-- Kernel-log line printed by `circ_buffer_write` when the buffer is full. -/
def dropMsg : String := "wii_remote_driver: circular buffer full, dropping data\n"

/-- Shallow embedding of `circ_buffer_write`: copy the data one byte at a
time; as soon as advancing `head` would make it equal `tail`, log the fixed
warning and stop, dropping the rest.  Returns the new buffer state, the
number of bytes actually copied (the loop index at exit, implicit in the C
code), and the kernel-log lines emitted. -/
def circ_buffer_write : CircState → List Char → CircState × Nat × List String
  | s, [] => (s, 0, [])
  | s, c :: rest =>
    if (s.head + 1) % CIRC_BUFFER_SIZE = s.tail then
      (s, 0, [dropMsg])
    else
      let r := circ_buffer_write
        ⟨s.buf.set s.head c, (s.head + 1) % CIRC_BUFFER_SIZE, s.tail⟩ rest
      (r.1, r.2.1 + 1, r.2.2)

/-- Number of unread bytes currently stored: the distance from `tail` up to
`head`, modulo the capacity. -/
def CircState.avail (s : CircState) : Nat :=
  (s.head + CIRC_BUFFER_SIZE - s.tail) % CIRC_BUFFER_SIZE

/-- Read `n` consecutive bytes of `buf` starting at position `t`, wrapping
modulo the capacity. -/
def unreadAux (buf : List Char) : Nat → Nat → List Char
  | _, 0 => []
  | t, n + 1 => buf.getD t default :: unreadAux buf ((t + 1) % CIRC_BUFFER_SIZE) n

/-- The sequence of unread bytes of the buffer, in the order a drain would
return them. -/
def CircState.unread (s : CircState) : List Char :=
  unreadAux s.buf s.tail s.avail

/-- Well-formedness of a buffer state: the array has the fixed capacity and
both cursors are in range (true of every state the C code produces, as the
cursors are only ever assigned values reduced modulo the capacity). -/
def CircState.WF (s : CircState) : Prop :=
  s.buf.length = CIRC_BUFFER_SIZE ∧ s.head < CIRC_BUFFER_SIZE ∧ s.tail < CIRC_BUFFER_SIZE

instance (s : CircState) : Decidable s.WF := by
  unfold CircState.WF
  infer_instance

/-- Shallow embedding of the loop of `device_read`.  The argument `cf copied`
tells whether the `copy_to_user` of byte number `copied` of this call faults
(the user page is bad); the fuel is `count - copied`.  Returns the `ssize_t`
result (`-14` is `-EFAULT`), the bytes delivered to user space in order, and
the buffer state on return. -/
def device_read_loop (cf : Nat → Bool) : CircState → Nat → Nat → Int × List Char × CircState
  | s, 0, copied => ((copied : Int), [], s)
  | s, fuel + 1, copied =>
    if s.tail = s.head then ((copied : Int), [], s)
    else if cf copied then (-14, [], s)
    else
      let c := s.buf.getD s.tail default
      let r := device_read_loop cf ⟨s.buf, s.head, (s.tail + 1) % CIRC_BUFFER_SIZE⟩ fuel (copied + 1)
      (r.1, c :: r.2.1, r.2.2)

/-- Embedding of `device_read` in the ordinary case where every
`copy_to_user` succeeds. -/
def device_read (s : CircState) (count : Nat) : Int × List Char × CircState :=
  device_read_loop (fun _ => false) s count 0

/-- The eleven button tests of `perform_input_mapping` in source order (lines
103-125): each pair is the C truthiness test of `btn_byte & mask` together
with the text the matching `snprintf` appends. -/
def buttonFlags (btn_byte1 btn_byte2 : Nat) : List (Bool × String) :=
  [(btn_byte1 &&& 0x01 != 0, "Dpad_Right "),
   (btn_byte1 &&& 0x02 != 0, "Dpad_Left "),
   (btn_byte1 &&& 0x04 != 0, "Dpad_Down "),
   (btn_byte1 &&& 0x08 != 0, "Dpad_Up "),
   (btn_byte1 &&& 0x10 != 0, "Plus "),
   (btn_byte1 &&& 0x20 != 0, "Minus "),
   (btn_byte1 &&& 0x40 != 0, "Home "),
   (btn_byte2 &&& 0x01 != 0, "A "),
   (btn_byte2 &&& 0x02 != 0, "B "),
   (btn_byte2 &&& 0x04 != 0, "1 "),
   (btn_byte2 &&& 0x08 != 0, "2 ")]

/-- Sequential conditional appends: run through the flag list in order and
append each text whose test holds — the accumulation performed by the eleven
`if` + `snprintf` statements of the source. -/
def appendFlags (out : String) : List (Bool × String) → String
  | [] => out
  | p :: rest => appendFlags (if p.1 then out ++ p.2 else out) rest

/-- The text `perform_input_mapping` builds in `mapping_output` for a report
with the given id and two button bytes, including the final length tracking:
the header is written first, each set mask bit appends its name and a space,
the `len == 0` fallback is kept exactly as in the source, and the newline is
appended when the entry fits below the 256-byte staging buffer (it always
does: the entry is at most 80 characters). -/
def mapping_entry (report_id btn_byte1 btn_byte2 : Nat) : String :=
  let out := "Report: ID=" ++ Nat.repr report_id ++ ", "
  let out := appendFlags out (buttonFlags btn_byte1 btn_byte2)
  let out := if out.length = 0 then "No buttons pressed" else out
  if out.length < 255 then out ++ "\n" else out

/-- Shallow embedding of `perform_input_mapping`: reports shorter than three
bytes are logged and discarded; otherwise the formatted entry is written to
the circular buffer. -/
def perform_input_mapping (s : CircState) (data : List Nat) : CircState :=
  if data.length < 3 then s
  else (circ_buffer_write s (mapping_entry (data.getD 0 0) (data.getD 1 0) (data.getD 2 0)).data).1

/-- The driver's global mutable state: the circular buffer, the retained HID
device handle (`wii_hid_dev != NULL`), the connection flag `wii_connected`,
and the cached battery level `wii_last_battery` (`-1` means unknown). -/
structure DriverState where
  circ : CircState
  hid_dev : Bool
  wii_connected : Bool
  wii_last_battery : Int
  deriving DecidableEq, Repr

/-- Shallow embedding of the `wii_raw_event` callback: a report whose first
byte is 0x20 and whose length is at least 2 produces a battery entry and
caches the level; any other report goes through `perform_input_mapping`. -/
def wii_raw_event (st : DriverState) (data : List Nat) : DriverState :=
  if 0 < data.length ∧ data.getD 0 0 = 0x20 then
    if 2 ≤ data.length then
      let battery_output := "Battery: " ++ Nat.repr (data.getD 1 0) ++ "\n"
      { st with
          wii_last_battery := (data.getD 1 0 : Int),
          circ := (circ_buffer_write st.circ battery_output.data).1 }
    else st
  else { st with circ := perform_input_mapping st.circ data }

/-- Shallow embedding of `wii_probe` after the external `hid_parse` and
`hid_hw_start` calls succeed: retain the handle and mark connected. -/
def wii_probe (st : DriverState) : DriverState :=
  { st with hid_dev := true, wii_connected := true }

/-- Shallow embedding of `wii_remove`: drop the handle and mark
disconnected. -/
def wii_remove (st : DriverState) : DriverState :=
  { st with hid_dev := false, wii_connected := false }

/-- Value of the ioctl command `_IO` built from the magic 0x57 and number 1
(WIIMOTE_IOCTL_REQUEST_STATUS in the source). -/
def WIIMOTE_IOCTL_REQUEST_STATUS : Nat := 0x57 * 256 + 1

/-- Linux error number ENODEV. -/
def ENODEV : Int := 19

/-- Linux error number ENOTTY. -/
def ENOTTY : Int := 25

/-- Linux error number EFAULT. -/
def EFAULT : Int := 14

/-- Shallow embedding of `device_ioctl`.  The argument `send_ret` is the
value the external transport call `hid_hw_raw_request` returns when a frame
is actually sent.  The result is the ioctl return value together with the
list of outbound frames handed to the transport during the call. -/
def device_ioctl (st : DriverState) (cmd : Nat) (send_ret : Int) : Int × List (List Nat) :=
  if cmd = WIIMOTE_IOCTL_REQUEST_STATUS then
    if st.hid_dev then (send_ret, [[0x15, 0x00]])
    else (-ENODEV, [])
  else (-ENOTTY, [])

/-- The buffer at module load: a zeroed static array with both cursors at
zero. -/
def initCirc : CircState :=
  ⟨List.replicate CIRC_BUFFER_SIZE (Char.ofNat 0), 0, 0⟩

/-- The driver state at module load: empty buffer, no handle, disconnected,
battery unknown (`-1`). -/
def initState : DriverState :=
  ⟨initCirc, false, false, -1⟩

/-- Lifecycle events delivered by the HID core: probe (connect) and remove
(disconnect). -/
inductive LifeEvent where
  | attach
  | detach
  deriving DecidableEq, Repr

/-- Apply one lifecycle callback to the driver state. -/
def applyLifeEvent (st : DriverState) : LifeEvent → DriverState
  | .attach => wii_probe st
  | .detach => wii_remove st

/-- Driver state after a sequence of lifecycle callbacks from module load. -/
def runLife (evs : List LifeEvent) : DriverState :=
  evs.foldl applyLifeEvent initState

/-- Decoded event variants in the vocabulary of the specification (section 3,
DATA MODEL).  The code itself never materialises such a value; this type is
the spec side of the refinement claims about classification. -/
inductive DecodedEvent where
  | buttonSnapshot (report_id : Nat)
      (dpad_right dpad_left dpad_down dpad_up plus minus home a b one two : Bool)
  | statusSnapshot (battery_level : Nat)
  | rejectedTooShort
  deriving DecidableEq, Repr

/-- Classification of a raw report following the words of the specification
(section 4.1): empty → TooShort; first byte 0x20 with length at least 2 →
status snapshot of the second byte; length under 3 → TooShort; otherwise a
button snapshot by the fixed bit layout. -/
def decodeSpec (raw : List Nat) : DecodedEvent :=
  if raw.length = 0 then .rejectedTooShort
  else if raw.getD 0 0 = 0x20 ∧ 2 ≤ raw.length then .statusSnapshot (raw.getD 1 0)
  else if raw.length < 3 then .rejectedTooShort
  else
    .buttonSnapshot (raw.getD 0 0)
      ((raw.getD 1 0).testBit 0) ((raw.getD 1 0).testBit 1) ((raw.getD 1 0).testBit 2)
      ((raw.getD 1 0).testBit 3) ((raw.getD 1 0).testBit 4) ((raw.getD 1 0).testBit 5)
      ((raw.getD 1 0).testBit 6)
      ((raw.getD 2 0).testBit 0) ((raw.getD 2 0).testBit 1) ((raw.getD 2 0).testBit 2)
      ((raw.getD 2 0).testBit 3)

/-- Names of the set button bits in the fixed field order, each followed by a
space, following the words of the specification (section 4.1, formatting
rule).  This is the spec side of the formatting refinement claim. -/
def buttonNamesSpec (b1 b2 : Nat) : String :=
  (if b1.testBit 0 then "Dpad_Right " else "") ++
  (if b1.testBit 1 then "Dpad_Left " else "") ++
  (if b1.testBit 2 then "Dpad_Down " else "") ++
  (if b1.testBit 3 then "Dpad_Up " else "") ++
  (if b1.testBit 4 then "Plus " else "") ++
  (if b1.testBit 5 then "Minus " else "") ++
  (if b1.testBit 6 then "Home " else "") ++
  (if b2.testBit 0 then "A " else "") ++
  (if b2.testBit 1 then "B " else "") ++
  (if b2.testBit 2 then "1 " else "") ++
  (if b2.testBit 3 then "2 " else "")

/-- Concatenation of the texts of the flags whose test holds, in list order —
the spec-side description (section 4.1) of what the sequential appends
produce. -/
def flagsText : List (Bool × String) → String
  | [] => ""
  | p :: rest => (if p.1 then p.2 else "") ++ flagsText rest

/-- State of the circular buffer after `n` repetitions of a single-byte
write of the byte `c` (the repeated-producer scenario of the claims). -/
def iterWrite (c : Char) : Nat → CircState → CircState
  | 0, s => s
  | n + 1, s => iterWrite c n (circ_buffer_write s [c]).1

/-! Helper lemmas about list access under updates. -/

theorem getD_set_ne (l : List Char) (p t : Nat) (c d : Char) (h : p ≠ t) :
    (l.set p c).getD t d = l.getD t d := by
  simp [List.getD_eq_getD_get?, List.getElem?_set_ne h]

theorem getD_set_self (l : List Char) (p : Nat) (c d : Char) (h : p < l.length) :
    (l.set p c).getD p d = c := by
  simp [List.getD_eq_getD_get?, List.getElem?_set_eq_of_lt c h]

/-! Facts about the unread segment. -/

theorem avail_lt (s : CircState) : s.avail < CIRC_BUFFER_SIZE := by
  unfold CircState.avail CIRC_BUFFER_SIZE
  omega

theorem full_iff (s : CircState) (h : s.WF) :
    (s.head + 1) % CIRC_BUFFER_SIZE = s.tail ↔ s.avail = CIRC_BUFFER_SIZE - 1 := by
  obtain ⟨-, h2, h3⟩ := h
  unfold CircState.avail CIRC_BUFFER_SIZE at *
  omega

theorem empty_iff (s : CircState) (h : s.WF) :
    s.tail = s.head ↔ s.avail = 0 := by
  obtain ⟨-, h2, h3⟩ := h
  unfold CircState.avail CIRC_BUFFER_SIZE at *
  omega

theorem unread_index_ne_head (s : CircState) (h : s.WF) (j : Nat) (hj : j < s.avail) :
    (s.tail + j) % CIRC_BUFFER_SIZE ≠ s.head := by
  obtain ⟨-, h2, h3⟩ := h
  unfold CircState.avail CIRC_BUFFER_SIZE at *
  omega

theorem tail_add_avail (s : CircState) (h : s.WF) :
    (s.tail + s.avail) % CIRC_BUFFER_SIZE = s.head := by
  obtain ⟨-, h2, h3⟩ := h
  unfold CircState.avail CIRC_BUFFER_SIZE at *
  omega

theorem unreadAux_snoc (buf : List Char) (n : Nat) :
    ∀ t : Nat, t < CIRC_BUFFER_SIZE →
      unreadAux buf t (n + 1) =
        unreadAux buf t n ++ [buf.getD ((t + n) % CIRC_BUFFER_SIZE) default] := by
  induction n with
  | zero =>
    intro t ht
    simp [unreadAux, Nat.mod_eq_of_lt ht]
  | succ n ih =>
    intro t ht
    have h1 : unreadAux buf t (n + 1 + 1) =
        buf.getD t default :: unreadAux buf ((t + 1) % CIRC_BUFFER_SIZE) (n + 1) := rfl
    have h2 : unreadAux buf t (n + 1) =
        buf.getD t default :: unreadAux buf ((t + 1) % CIRC_BUFFER_SIZE) n := rfl
    rw [h1, h2, ih ((t + 1) % CIRC_BUFFER_SIZE) (Nat.mod_lt _ (by decide)), Nat.mod_add_mod,
      show t + 1 + n = t + (n + 1) by omega]
    simp

theorem unreadAux_set_ne (buf : List Char) (c : Char) (p n : Nat) :
    ∀ t : Nat, t < CIRC_BUFFER_SIZE → (∀ j, j < n → (t + j) % CIRC_BUFFER_SIZE ≠ p) →
      unreadAux (buf.set p c) t n = unreadAux buf t n := by
  induction n with
  | zero => intro t _ _; rfl
  | succ n ih =>
    intro t ht hall
    rw [unreadAux, unreadAux,
      ih ((t + 1) % CIRC_BUFFER_SIZE) (Nat.mod_lt _ (by decide))
        (fun j hj => by rw [Nat.mod_add_mod]; exact (by have := hall (1 + j) (by omega); rwa [show t + (1 + j) = t + 1 + j by omega] at this)),
      getD_set_ne]
    have := hall 0 (by omega)
    simp only [Nat.add_zero] at this
    rw [Nat.mod_eq_of_lt ht] at this
    exact fun hpt => this (hpt ▸ rfl)

theorem unreadAux_drop (buf : List Char) (k : Nat) :
    ∀ n t : Nat, k ≤ n → t < CIRC_BUFFER_SIZE →
      (unreadAux buf t n).drop k = unreadAux buf ((t + k) % CIRC_BUFFER_SIZE) (n - k) := by
  induction k with
  | zero =>
    intro n t _ ht
    simp [Nat.mod_eq_of_lt ht]
  | succ k ih =>
    intro n t hk ht
    match n, hk with
    | n + 1, _ =>
      have h1 : unreadAux buf t (n + 1) =
          buf.getD t default :: unreadAux buf ((t + 1) % CIRC_BUFFER_SIZE) n := rfl
      rw [h1, List.drop_succ_cons,
        ih n ((t + 1) % CIRC_BUFFER_SIZE) (by omega) (Nat.mod_lt _ (by decide)),
        Nat.mod_add_mod, show t + 1 + k = t + (k + 1) by omega, Nat.succ_sub_succ]

theorem avail_set_advance (s : CircState) (c : Char) (hs : s.WF)
    (hnf : (s.head + 1) % CIRC_BUFFER_SIZE ≠ s.tail) :
    CircState.avail ⟨s.buf.set s.head c, (s.head + 1) % CIRC_BUFFER_SIZE, s.tail⟩ =
      s.avail + 1 := by
  obtain ⟨-, h2, h3⟩ := hs
  show ((s.head + 1) % CIRC_BUFFER_SIZE + CIRC_BUFFER_SIZE - s.tail) % CIRC_BUFFER_SIZE =
    (s.head + CIRC_BUFFER_SIZE - s.tail) % CIRC_BUFFER_SIZE + 1
  unfold CIRC_BUFFER_SIZE at *
  omega

theorem unread_after_set (s : CircState) (c : Char) (hs : s.WF)
    (hnf : (s.head + 1) % CIRC_BUFFER_SIZE ≠ s.tail) :
    CircState.unread ⟨s.buf.set s.head c, (s.head + 1) % CIRC_BUFFER_SIZE, s.tail⟩ =
      s.unread ++ [c] := by
  have h0 : CircState.unread ⟨s.buf.set s.head c, (s.head + 1) % CIRC_BUFFER_SIZE, s.tail⟩ =
      unreadAux (s.buf.set s.head c) s.tail
        (CircState.avail ⟨s.buf.set s.head c, (s.head + 1) % CIRC_BUFFER_SIZE, s.tail⟩) := rfl
  rw [h0, avail_set_advance s c hs hnf,
    unreadAux_snoc (s.buf.set s.head c) s.avail s.tail hs.2.2,
    unreadAux_set_ne s.buf c s.head s.avail s.tail hs.2.2
      (fun j hj => unread_index_ne_head s hs j hj),
    tail_add_avail s hs,
    getD_set_self s.buf s.head c default (by rw [hs.1]; exact hs.2.1)]
  rfl

/-- Master characterisation of `circ_buffer_write` on a well-formed state: the
write preserves well-formedness and the read cursor, copies exactly
`min data.length (capacity - 1 - avail)` bytes, appends exactly the copied
prefix of the data to the unread segment — never touching previously unread
bytes — and logs the fixed warning exactly when some bytes were dropped. -/
theorem circ_buffer_write_spec (data : List Char) :
    ∀ s : CircState, s.WF →
      (circ_buffer_write s data).1.WF ∧
      (circ_buffer_write s data).1.tail = s.tail ∧
      (circ_buffer_write s data).2.1 = min data.length (CIRC_BUFFER_SIZE - 1 - s.avail) ∧
      (circ_buffer_write s data).1.unread =
        s.unread ++ data.take (circ_buffer_write s data).2.1 ∧
      (circ_buffer_write s data).2.2 =
        (if (circ_buffer_write s data).2.1 < data.length then [dropMsg] else []) := by
  induction data with
  | nil =>
    intro s hs
    exact ⟨hs, rfl, by simp [circ_buffer_write],
      by simp [circ_buffer_write], by simp [circ_buffer_write]⟩
  | cons c rest ih =>
    intro s hs
    have hcw : circ_buffer_write s (c :: rest) =
        if (s.head + 1) % CIRC_BUFFER_SIZE = s.tail then (s, 0, [dropMsg])
        else
          ((circ_buffer_write
              ⟨s.buf.set s.head c, (s.head + 1) % CIRC_BUFFER_SIZE, s.tail⟩ rest).1,
            (circ_buffer_write
              ⟨s.buf.set s.head c, (s.head + 1) % CIRC_BUFFER_SIZE, s.tail⟩ rest).2.1 + 1,
            (circ_buffer_write
              ⟨s.buf.set s.head c, (s.head + 1) % CIRC_BUFFER_SIZE, s.tail⟩ rest).2.2) := rfl
    by_cases hfull : (s.head + 1) % CIRC_BUFFER_SIZE = s.tail
    · have havail : s.avail = CIRC_BUFFER_SIZE - 1 := (full_iff s hs).1 hfull
      rw [hcw, if_pos hfull]
      exact ⟨hs, rfl, by simp [havail], by simp, by simp⟩
    · rw [hcw, if_neg hfull]
      have hwf1 : CircState.WF ⟨s.buf.set s.head c, (s.head + 1) % CIRC_BUFFER_SIZE, s.tail⟩ := by
        refine ⟨?_, Nat.mod_lt _ (by decide), hs.2.2⟩
        simpa using hs.1
      obtain ⟨ihwf, ihtail, ihw, ihu, ihl⟩ :=
        ih ⟨s.buf.set s.head c, (s.head + 1) % CIRC_BUFFER_SIZE, s.tail⟩ hwf1
      have havm := avail_set_advance s c hs hfull
      have hav22 : s.avail ≤ CIRC_BUFFER_SIZE - 2 := by
        have h1 := avail_lt s
        have h2 : s.avail ≠ CIRC_BUFFER_SIZE - 1 := fun hh => hfull ((full_iff s hs).2 hh)
        unfold CIRC_BUFFER_SIZE at *
        omega
      refine ⟨ihwf, ihtail, ?_, ?_, ?_⟩
      · rw [ihw, havm]
        simp only [List.length_cons]
        unfold CIRC_BUFFER_SIZE at *
        omega
      · rw [ihu, unread_after_set s c hs hfull, List.take_succ_cons, List.append_assoc]
        rfl
      · rw [ihl]
        simp only [List.length_cons, Nat.add_lt_add_iff_right]

/-- Master characterisation of the fault-free `device_read` loop: it returns
the first `min fuel avail` unread bytes, advances the read cursor past
exactly the bytes returned, never touches the array or the write cursor, and
reports the number of bytes copied. -/
theorem device_read_loop_ok (fuel : Nat) :
    ∀ (s : CircState) (copied : Nat), s.WF →
      device_read_loop (fun _ => false) s fuel copied =
        (((copied + min fuel s.avail : Nat) : Int), s.unread.take fuel,
          ⟨s.buf, s.head, (s.tail + min fuel s.avail) % CIRC_BUFFER_SIZE⟩) := by
  induction fuel with
  | zero =>
    intro s copied hs
    simp [device_read_loop, Nat.mod_eq_of_lt hs.2.2]
  | succ fuel ih =>
    intro s copied hs
    by_cases he : s.tail = s.head
    · have hav : s.avail = 0 := (empty_iff s hs).1 he
      obtain ⟨b, hd, tl⟩ := s
      obtain ⟨h1, h2, h3⟩ := hs
      simp [device_read_loop, he, hav, CircState.unread, unreadAux,
        Nat.mod_eq_of_lt h2, Nat.mod_eq_of_lt h3]
      exact he
    · have hav1 : 1 ≤ s.avail := by
        rcases Nat.eq_zero_or_pos s.avail with h0 | h1
        · exact absurd ((empty_iff s hs).2 h0) he
        · exact h1
      have hwfs : CircState.WF ⟨s.buf, s.head, (s.tail + 1) % CIRC_BUFFER_SIZE⟩ :=
        ⟨hs.1, hs.2.1, Nat.mod_lt _ (by decide)⟩
      have havs : CircState.avail ⟨s.buf, s.head, (s.tail + 1) % CIRC_BUFFER_SIZE⟩ =
          s.avail - 1 := by
        obtain ⟨-, h2, h3⟩ := hs
        have hne : s.tail ≠ s.head := he
        show (s.head + CIRC_BUFFER_SIZE - (s.tail + 1) % CIRC_BUFFER_SIZE) % CIRC_BUFFER_SIZE =
          (s.head + CIRC_BUFFER_SIZE - s.tail) % CIRC_BUFFER_SIZE - 1
        unfold CIRC_BUFFER_SIZE at *
        omega
      have hu : s.unread =
          s.buf.getD s.tail default ::
            CircState.unread ⟨s.buf, s.head, (s.tail + 1) % CIRC_BUFFER_SIZE⟩ := by
        obtain ⟨k, hk⟩ : ∃ k, s.avail = k + 1 := ⟨s.avail - 1, by omega⟩
        show unreadAux s.buf s.tail s.avail =
          s.buf.getD s.tail default ::
            unreadAux s.buf ((s.tail + 1) % CIRC_BUFFER_SIZE)
              (CircState.avail ⟨s.buf, s.head, (s.tail + 1) % CIRC_BUFFER_SIZE⟩)
        rw [havs, hk]
        rfl
      have hstep : device_read_loop (fun _ => false) s (fuel + 1) copied =
          ((device_read_loop (fun _ => false)
              ⟨s.buf, s.head, (s.tail + 1) % CIRC_BUFFER_SIZE⟩ fuel (copied + 1)).1,
            s.buf.getD s.tail default ::
              (device_read_loop (fun _ => false)
                ⟨s.buf, s.head, (s.tail + 1) % CIRC_BUFFER_SIZE⟩ fuel (copied + 1)).2.1,
            (device_read_loop (fun _ => false)
              ⟨s.buf, s.head, (s.tail + 1) % CIRC_BUFFER_SIZE⟩ fuel (copied + 1)).2.2) := by
        rw [device_read_loop, if_neg he]
        exact rfl
      rw [hstep, ih _ (copied + 1) hwfs, havs]
      refine congrArg₂ Prod.mk ?_ (congrArg₂ Prod.mk ?_ ?_)
      · exact congrArg (fun n : Nat => (n : Int)) (by omega)
      · rw [hu, List.take_succ_cons]
      · have harg : s.tail + 1 + min fuel (s.avail - 1) = s.tail + min (fuel + 1) s.avail := by
          omega
        rw [Nat.mod_add_mod, harg]

theorem length_unreadAux (buf : List Char) (n : Nat) :
    ∀ t : Nat, (unreadAux buf t n).length = n := by
  induction n with
  | zero => intro t; rfl
  | succ n ih =>
    intro t
    show (buf.getD t default :: unreadAux buf ((t + 1) % CIRC_BUFFER_SIZE) n).length = n + 1
    rw [List.length_cons, ih]

theorem length_unread (s : CircState) : s.unread.length = s.avail :=
  length_unreadAux s.buf s.avail s.tail

theorem avail_tail_advance (s : CircState) (hs : s.WF) (he : s.tail ≠ s.head) :
    CircState.avail ⟨s.buf, s.head, (s.tail + 1) % CIRC_BUFFER_SIZE⟩ = s.avail - 1 := by
  obtain ⟨-, h2, h3⟩ := hs
  show (s.head + CIRC_BUFFER_SIZE - (s.tail + 1) % CIRC_BUFFER_SIZE) % CIRC_BUFFER_SIZE =
    (s.head + CIRC_BUFFER_SIZE - s.tail) % CIRC_BUFFER_SIZE - 1
  unfold CIRC_BUFFER_SIZE at *
  omega

theorem unread_cons (s : CircState) (hs : s.WF) (he : s.tail ≠ s.head) :
    s.unread = s.buf.getD s.tail default ::
      CircState.unread ⟨s.buf, s.head, (s.tail + 1) % CIRC_BUFFER_SIZE⟩ := by
  have hav1 : 1 ≤ s.avail := by
    rcases Nat.eq_zero_or_pos s.avail with h0 | h1
    · exact absurd ((empty_iff s hs).2 h0) he
    · exact h1
  obtain ⟨k, hk⟩ : ∃ k, s.avail = k + 1 := ⟨s.avail - 1, by omega⟩
  show unreadAux s.buf s.tail s.avail =
    s.buf.getD s.tail default ::
      unreadAux s.buf ((s.tail + 1) % CIRC_BUFFER_SIZE)
        (CircState.avail ⟨s.buf, s.head, (s.tail + 1) % CIRC_BUFFER_SIZE⟩)
  rw [avail_tail_advance s hs he, hk]
  rfl

theorem avail_shift (s : CircState) (hs : s.WF) (j : Nat) (hj : j ≤ s.avail) :
    CircState.avail ⟨s.buf, s.head, (s.tail + j) % CIRC_BUFFER_SIZE⟩ = s.avail - j := by
  obtain ⟨-, h2, h3⟩ := hs
  show (s.head + CIRC_BUFFER_SIZE - (s.tail + j) % CIRC_BUFFER_SIZE) % CIRC_BUFFER_SIZE =
    (s.head + CIRC_BUFFER_SIZE - s.tail) % CIRC_BUFFER_SIZE - j
  unfold CircState.avail CIRC_BUFFER_SIZE at *
  omega

theorem unread_shift (s : CircState) (hs : s.WF) (j : Nat) (hj : j ≤ s.avail) :
    CircState.unread ⟨s.buf, s.head, (s.tail + j) % CIRC_BUFFER_SIZE⟩ = s.unread.drop j := by
  show unreadAux s.buf ((s.tail + j) % CIRC_BUFFER_SIZE)
      (CircState.avail ⟨s.buf, s.head, (s.tail + j) % CIRC_BUFFER_SIZE⟩) =
    (unreadAux s.buf s.tail s.avail).drop j
  rw [avail_shift s hs j hj, unreadAux_drop s.buf j s.avail s.tail hj hs.2.2]

/-- Behaviour of the `device_read` loop when the `copy_to_user` of byte
number `j` of the call faults: the loop returns `-EFAULT`; the bytes before
the failing one were already delivered and the read cursor has advanced past
exactly those; the failing byte and everything after it remain buffered. -/
theorem device_read_loop_fault (j : Nat) :
    ∀ (fuel : Nat) (s : CircState) (c : Nat), s.WF → c ≤ j → j - c < fuel → j - c < s.avail →
      device_read_loop (fun i => i == j) s fuel c =
        (-14, s.unread.take (j - c),
          ⟨s.buf, s.head, (s.tail + (j - c)) % CIRC_BUFFER_SIZE⟩) := by
  intro fuel
  induction fuel with
  | zero => intro s c hs hcj hf hav; omega
  | succ fuel ih =>
    intro s c hs hcj hf hav
    have he : s.tail ≠ s.head := by
      intro hh
      rw [(empty_iff s hs).1 hh] at hav
      omega
    by_cases hcase : c = j
    · subst hcase
      have hstep : device_read_loop (fun i => i == c) s (fuel + 1) c = (-14, [], s) := by
        rw [device_read_loop, if_neg he]
        simp
      rw [hstep, Nat.sub_self]
      obtain ⟨b, hd, tl⟩ := s
      obtain ⟨h1, h2, h3⟩ := hs
      simp [Nat.mod_eq_of_lt h3]
    · have hlt : c < j := by omega
      have hcf : ¬((c == j) = true) := by simp [hcase]
      have hwfs : CircState.WF ⟨s.buf, s.head, (s.tail + 1) % CIRC_BUFFER_SIZE⟩ :=
        ⟨hs.1, hs.2.1, Nat.mod_lt _ (by decide)⟩
      have hstep : device_read_loop (fun i => i == j) s (fuel + 1) c =
          ((device_read_loop (fun i => i == j)
              ⟨s.buf, s.head, (s.tail + 1) % CIRC_BUFFER_SIZE⟩ fuel (c + 1)).1,
            s.buf.getD s.tail default ::
              (device_read_loop (fun i => i == j)
                ⟨s.buf, s.head, (s.tail + 1) % CIRC_BUFFER_SIZE⟩ fuel (c + 1)).2.1,
            (device_read_loop (fun i => i == j)
              ⟨s.buf, s.head, (s.tail + 1) % CIRC_BUFFER_SIZE⟩ fuel (c + 1)).2.2) := by
        rw [device_read_loop, if_neg he, if_neg hcf]
      rw [hstep, ih _ (c + 1) hwfs (by omega) (by omega)
        (by rw [avail_tail_advance s hs he]; omega)]
      have hsub : j - c = (j - (c + 1)) + 1 := by omega
      refine congrArg₂ Prod.mk rfl (congrArg₂ Prod.mk ?_ ?_)
      · rw [unread_cons s hs he, hsub, List.take_succ_cons]
      · have harg : s.tail + 1 + (j - (c + 1)) = s.tail + (j - c) := by omega
        rw [Nat.mod_add_mod, harg]

theorem avail_after_write (s : CircState) (data : List Char) (hs : s.WF) :
    (circ_buffer_write s data).1.avail = s.avail + (circ_buffer_write s data).2.1 := by
  have hw := circ_buffer_write_spec data s hs
  rw [← length_unread, hw.2.2.2.1, List.length_append, length_unread, List.length_take]
  have hle : (circ_buffer_write s data).2.1 ≤ data.length := by
    rw [hw.2.2.1]
    omega
  omega

theorem iterWrite_spec (c : Char) :
    ∀ (n : Nat) (s : CircState), s.WF →
      (iterWrite c n s).WF ∧
      (iterWrite c n s).avail = min (s.avail + n) (CIRC_BUFFER_SIZE - 1) := by
  intro n
  induction n with
  | zero =>
    intro s hs
    refine ⟨hs, ?_⟩
    show s.avail = min (s.avail + 0) (CIRC_BUFFER_SIZE - 1)
    have := avail_lt s
    unfold CIRC_BUFFER_SIZE at *
    omega
  | succ n ih =>
    intro s hs
    have hw := circ_buffer_write_spec [c] s hs
    have hstep : iterWrite c (n + 1) s = iterWrite c n (circ_buffer_write s [c]).1 := rfl
    obtain ⟨ihwf, ihav⟩ := ih (circ_buffer_write s [c]).1 hw.1
    rw [hstep]
    refine ⟨ihwf, ?_⟩
    rw [ihav, avail_after_write s [c] hs, hw.2.2.1]
    have := avail_lt s
    simp only [List.length_cons, List.length_nil]
    unfold CIRC_BUFFER_SIZE at *
    omega

theorem initCirc_WF : initCirc.WF :=
  ⟨by simp [initCirc], by decide, by decide⟩

theorem avail_initCirc : initCirc.avail = 0 := rfl

theorem unread_initCirc : initCirc.unread = [] := rfl

/-- Writing anything to a full buffer leaves the state unchanged, copies
nothing, and emits the fixed warning — independent of how much data was
offered. -/
theorem write_full_eq (s : CircState) (hs : s.WF) (hfull : s.avail = CIRC_BUFFER_SIZE - 1)
    (c : Char) (rest : List Char) :
    circ_buffer_write s (c :: rest) = (s, 0, [dropMsg]) := by
  have hf : (s.head + 1) % CIRC_BUFFER_SIZE = s.tail := (full_iff s hs).2 hfull
  rw [circ_buffer_write, if_pos hf]

/-! Formatting lemmas. -/

theorem appendFlags_eq (ps : List (Bool × String)) :
    ∀ h : String, appendFlags h ps = h ++ flagsText ps := by
  induction ps with
  | nil => intro h; simp [appendFlags, flagsText]
  | cons p rest ih =>
    intro h
    show appendFlags (if p.1 then h ++ p.2 else h) rest =
      h ++ ((if p.1 then p.2 else "") ++ flagsText rest)
    rw [ih]
    cases hp : p.1 <;> simp [String.append_assoc]

theorem mask_testBit_byte (b : Nat) (hb : b < 256) :
    (b &&& 0x01 != 0) = b.testBit 0 ∧ (b &&& 0x02 != 0) = b.testBit 1 ∧
    (b &&& 0x04 != 0) = b.testBit 2 ∧ (b &&& 0x08 != 0) = b.testBit 3 ∧
    (b &&& 0x10 != 0) = b.testBit 4 ∧ (b &&& 0x20 != 0) = b.testBit 5 ∧
    (b &&& 0x40 != 0) = b.testBit 6 := by
  have h : ∀ x : Fin 256,
      (x.val &&& 0x01 != 0) = x.val.testBit 0 ∧ (x.val &&& 0x02 != 0) = x.val.testBit 1 ∧
      (x.val &&& 0x04 != 0) = x.val.testBit 2 ∧ (x.val &&& 0x08 != 0) = x.val.testBit 3 ∧
      (x.val &&& 0x10 != 0) = x.val.testBit 4 ∧ (x.val &&& 0x20 != 0) = x.val.testBit 5 ∧
      (x.val &&& 0x40 != 0) = x.val.testBit 6 := by decide
  exact h ⟨b, hb⟩

theorem flagsText_buttonFlags (b1 b2 : Nat) (h1 : b1 < 256) (h2 : b2 < 256) :
    flagsText (buttonFlags b1 b2) = buttonNamesSpec b1 b2 := by
  obtain ⟨e0, e1, e2, e3, e4, e5, e6⟩ := mask_testBit_byte b1 h1
  obtain ⟨f0, f1, f2, f3, -, -, -⟩ := mask_testBit_byte b2 h2
  simp only [buttonFlags, flagsText, e0, e1, e2, e3, e4, e5, e6, f0, f1, f2, f3]
  simp [buttonNamesSpec, String.append_assoc]

theorem length_le_of_ite (c : Prop) [Decidable c] (s : String) :
    (if c then s else "").length ≤ s.length := by
  split
  · exact Nat.le_refl _
  · simp

theorem buttonNamesSpec_length (b1 b2 : Nat) : (buttonNamesSpec b1 b2).length ≤ 63 := by
  unfold buttonNamesSpec
  have g0 : (if b1.testBit 0 = true then "Dpad_Right " else "").length ≤ 11 :=
    le_trans (length_le_of_ite _ _) (by decide)
  have g1 : (if b1.testBit 1 = true then "Dpad_Left " else "").length ≤ 10 :=
    le_trans (length_le_of_ite _ _) (by decide)
  have g2 : (if b1.testBit 2 = true then "Dpad_Down " else "").length ≤ 10 :=
    le_trans (length_le_of_ite _ _) (by decide)
  have g3 : (if b1.testBit 3 = true then "Dpad_Up " else "").length ≤ 8 :=
    le_trans (length_le_of_ite _ _) (by decide)
  have g4 : (if b1.testBit 4 = true then "Plus " else "").length ≤ 5 :=
    le_trans (length_le_of_ite _ _) (by decide)
  have g5 : (if b1.testBit 5 = true then "Minus " else "").length ≤ 6 :=
    le_trans (length_le_of_ite _ _) (by decide)
  have g6 : (if b1.testBit 6 = true then "Home " else "").length ≤ 5 :=
    le_trans (length_le_of_ite _ _) (by decide)
  have g7 : (if b2.testBit 0 = true then "A " else "").length ≤ 2 :=
    le_trans (length_le_of_ite _ _) (by decide)
  have g8 : (if b2.testBit 1 = true then "B " else "").length ≤ 2 :=
    le_trans (length_le_of_ite _ _) (by decide)
  have g9 : (if b2.testBit 2 = true then "1 " else "").length ≤ 2 :=
    le_trans (length_le_of_ite _ _) (by decide)
  have g10 : (if b2.testBit 3 = true then "2 " else "").length ≤ 2 :=
    le_trans (length_le_of_ite _ _) (by decide)
  simp only [String.length_append]
  omega

theorem repr_length_le (n : Nat) (hn : n < 256) : (Nat.repr n).length ≤ 3 := by
  have h : ∀ x : Fin 256, (Nat.repr x.val).length ≤ 3 := by decide
  exact h ⟨n, hn⟩

/-- Characterisation of the formatted button entry for byte values: the
header followed by exactly the names of the set bits in the fixed order,
each with its trailing space, then a newline. -/
theorem mapping_entry_eq (id b1 b2 : Nat) (hid : id < 256) (h1 : b1 < 256) (h2 : b2 < 256) :
    mapping_entry id b1 b2 =
      (("Report: ID=" ++ Nat.repr id ++ ", ") ++ buttonNamesSpec b1 b2) ++ "\n" := by
  have hbase : appendFlags ("Report: ID=" ++ Nat.repr id ++ ", ") (buttonFlags b1 b2) =
      ("Report: ID=" ++ Nat.repr id ++ ", ") ++ buttonNamesSpec b1 b2 := by
    rw [appendFlags_eq, flagsText_buttonFlags b1 b2 h1 h2]
  have hr := repr_length_le id hid
  have hb := buttonNamesSpec_length b1 b2
  have hh : ("Report: ID=").length = 11 := by decide
  have hc : (", ").length = 2 := by decide
  have hne : ¬((("Report: ID=" ++ Nat.repr id ++ ", ") ++ buttonNamesSpec b1 b2).length = 0) := by
    simp only [String.length_append]
    omega
  have hfit : (("Report: ID=" ++ Nat.repr id ++ ", ") ++ buttonNamesSpec b1 b2).length < 255 := by
    simp only [String.length_append]
    omega
  unfold mapping_entry
  dsimp only
  rw [hbase, if_neg hne, if_pos hfit]

theorem buttonNamesSpec_zero (b1 b2 : Nat) (h1 : b1 < 256) (h2 : b2 < 256)
    (hz1 : b1 &&& 0x7F = 0) (hz2 : b2 &&& 0x0F = 0) :
    buttonNamesSpec b1 b2 = "" := by
  have hx : ∀ x : Fin 256, x.val &&& 0x7F = 0 →
      (x.val.testBit 0 = false ∧ x.val.testBit 1 = false ∧ x.val.testBit 2 = false ∧
       x.val.testBit 3 = false ∧ x.val.testBit 4 = false ∧ x.val.testBit 5 = false ∧
       x.val.testBit 6 = false) := by decide
  have hy : ∀ x : Fin 256, x.val &&& 0x0F = 0 →
      (x.val.testBit 0 = false ∧ x.val.testBit 1 = false ∧ x.val.testBit 2 = false ∧
       x.val.testBit 3 = false) := by decide
  obtain ⟨e0, e1, e2, e3, e4, e5, e6⟩ := hx ⟨b1, h1⟩ hz1
  obtain ⟨f0, f1, f2, f3⟩ := hy ⟨b2, h2⟩ hz2
  simp [buttonNamesSpec, e0, e1, e2, e3, e4, e5, e6, f0, f1, f2, f3]

/-! Claim theorems. -/

/-- C3: the channel buffer never overwrites an unread byte — a write appends
the copied prefix after the existing unread bytes and stops (dropping the
rest) as soon as advancing the write cursor would reach the read cursor, so
the copied count is min(len, 1023 - avail) and at most capacity−1 = 1023
unread bytes are ever stored; and after 1023 single-byte writes on the
capacity-1024 buffer with no drains, the 1024th write copies nothing — its
byte is dropped and the drop is logged. -/
theorem claim_C3 (s : CircState) (data : List Char) (hs : s.WF) :
    ((circ_buffer_write s data).1.unread =
        s.unread ++ data.take (circ_buffer_write s data).2.1 ∧
      (circ_buffer_write s data).2.1 = min data.length (CIRC_BUFFER_SIZE - 1 - s.avail) ∧
      (circ_buffer_write s data).1.unread.length ≤ CIRC_BUFFER_SIZE - 1) ∧
    ∀ c : Char,
      (circ_buffer_write (iterWrite c (CIRC_BUFFER_SIZE - 1) initCirc) [c]).2.1 = 0 ∧
      (circ_buffer_write (iterWrite c (CIRC_BUFFER_SIZE - 1) initCirc) [c]).2.2 = [dropMsg] := by
  have hw := circ_buffer_write_spec data s hs
  refine ⟨⟨hw.2.2.2.1, hw.2.2.1, ?_⟩, ?_⟩
  · rw [length_unread]
    have := avail_lt (circ_buffer_write s data).1
    unfold CIRC_BUFFER_SIZE at *
    omega
  · intro c
    have hiter := iterWrite_spec c (CIRC_BUFFER_SIZE - 1) initCirc initCirc_WF
    have hfull : (iterWrite c (CIRC_BUFFER_SIZE - 1) initCirc).avail = CIRC_BUFFER_SIZE - 1 := by
      rw [hiter.2, avail_initCirc]
      simp
    rw [write_full_eq _ hiter.1 hfull c []]
    exact ⟨rfl, rfl⟩

/-- Witness for C3 at a concrete input: a two-byte write on the empty
buffer. -/
theorem claim_C3_witness :
    ((circ_buffer_write initCirc ['h', 'i']).1.unread =
        initCirc.unread ++ ['h', 'i'].take (circ_buffer_write initCirc ['h', 'i']).2.1 ∧
      (circ_buffer_write initCirc ['h', 'i']).2.1 =
        min (['h', 'i'] : List Char).length (CIRC_BUFFER_SIZE - 1 - initCirc.avail) ∧
      (circ_buffer_write initCirc ['h', 'i']).1.unread.length ≤ CIRC_BUFFER_SIZE - 1) ∧
    ∀ c : Char,
      (circ_buffer_write (iterWrite c (CIRC_BUFFER_SIZE - 1) initCirc) [c]).2.1 = 0 ∧
      (circ_buffer_write (iterWrite c (CIRC_BUFFER_SIZE - 1) initCirc) [c]).2.2 = [dropMsg] :=
  claim_C3 initCirc ['h', 'i'] initCirc_WF

/-- C4: channel round trip — writing N ≤ 1023 bytes into the empty buffer
and draining with max ≥ N returns exactly those bytes in order; in general a
drain returns exactly min(max, available) bytes and reports that count as
its return value, in particular 0 on an empty buffer. -/
theorem claim_C4 (data : List Char) (mx : Nat)
    (hlen : data.length ≤ CIRC_BUFFER_SIZE - 1) (hmx : data.length ≤ mx) :
    (device_read (circ_buffer_write initCirc data).1 mx).2.1 = data ∧
    (∀ (s : CircState) (k : Nat), s.WF →
      (device_read s k).2.1.length = min k s.avail ∧
      (device_read s k).1 = ((min k s.avail : Nat) : Int)) ∧
    (∀ (s : CircState) (k : Nat), s.WF → s.avail = 0 → (device_read s k).1 = 0) := by
  have hgen : ∀ (s : CircState) (k : Nat), s.WF →
      (device_read s k).2.1.length = min k s.avail ∧
      (device_read s k).1 = ((min k s.avail : Nat) : Int) := by
    intro s k hsk
    unfold device_read
    rw [device_read_loop_ok k s 0 hsk]
    constructor
    · rw [List.length_take, length_unread]
    · simp
  refine ⟨?_, hgen, ?_⟩
  · have hw := circ_buffer_write_spec data initCirc initCirc_WF
    have hwlen : (circ_buffer_write initCirc data).2.1 = data.length := by
      rw [hw.2.2.1, avail_initCirc]
      unfold CIRC_BUFFER_SIZE at *
      omega
    have hu : (circ_buffer_write initCirc data).1.unread = data := by
      rw [hw.2.2.2.1, hwlen, unread_initCirc, List.nil_append, List.take_length]
    unfold device_read
    rw [device_read_loop_ok mx _ 0 hw.1, hu]
    exact List.take_of_length_le hmx
  · intro s k hsk hem
    rcases hgen s k hsk with ⟨-, h2⟩
    rw [h2, hem]
    simp

/-- Witness for C4 at a concrete input: write three bytes, drain up to 8. -/
theorem claim_C4_witness :
    (device_read (circ_buffer_write initCirc ['w', 'i', 'i']).1 8).2.1 = ['w', 'i', 'i'] ∧
    (∀ (s : CircState) (k : Nat), s.WF →
      (device_read s k).2.1.length = min k s.avail ∧
      (device_read s k).1 = ((min k s.avail : Nat) : Int)) ∧
    (∀ (s : CircState) (k : Nat), s.WF → s.avail = 0 → (device_read s k).1 = 0) :=
  claim_C4 ['w', 'i', 'i'] 8 (by decide) (by decide)

/-- C7 (amended): when a write meets the full buffer it stops immediately —
the copied count is min(len, 1023 - avail) — and the only report is the
fixed kernel-log warning, emitted exactly when bytes were dropped; the
warning carries no count and the C function returns void, so the outcome
does not expose the pair (n_written, n_dropped). -/
theorem claim_C7 (s : CircState) (data : List Char) (hs : s.WF) :
    (circ_buffer_write s data).2.1 = min data.length (CIRC_BUFFER_SIZE - 1 - s.avail) ∧
    ((circ_buffer_write s data).2.1 < data.length →
      (circ_buffer_write s data).2.2 = [dropMsg]) := by
  have hw := circ_buffer_write_spec data s hs
  exact ⟨hw.2.2.1, fun h => by rw [hw.2.2.2.2, if_pos h]⟩

/-- Witness for C7 at a concrete input: a one-byte write on the empty
buffer. -/
theorem claim_C7_witness :
    (circ_buffer_write initCirc ['x']).2.1 =
      min (['x'] : List Char).length (CIRC_BUFFER_SIZE - 1 - initCirc.avail) ∧
    ((circ_buffer_write initCirc ['x']).2.1 < (['x'] : List Char).length →
      (circ_buffer_write initCirc ['x']).2.2 = [dropMsg]) :=
  claim_C7 initCirc ['x'] initCirc_WF

/-- Counterexample to C7 as stated: on the same full buffer, a write
dropping 1 byte and a write dropping 5 bytes produce identical observable
outcomes — the same final state, the same copied count and the same log —
so no part of the outcome reports how many bytes were dropped. -/
theorem claim_C7_counterexample :
    circ_buffer_write (iterWrite 'a' (CIRC_BUFFER_SIZE - 1) initCirc) ['a'] =
      circ_buffer_write (iterWrite 'a' (CIRC_BUFFER_SIZE - 1) initCirc)
        ['a', 'b', 'c', 'd', 'e'] ∧
    (['a'] : List Char).length ≠ (['a', 'b', 'c', 'd', 'e'] : List Char).length := by
  have hiter := iterWrite_spec 'a' (CIRC_BUFFER_SIZE - 1) initCirc initCirc_WF
  have hfull : (iterWrite 'a' (CIRC_BUFFER_SIZE - 1) initCirc).avail = CIRC_BUFFER_SIZE - 1 := by
    rw [hiter.2, avail_initCirc]
    simp
  rw [write_full_eq _ hiter.1 hfull 'a' [],
    write_full_eq _ hiter.1 hfull 'a' ['b', 'c', 'd', 'e']]
  exact ⟨rfl, by decide⟩

/-- C10: drain is not atomic on a copy fault — when the copy of byte number
j to user space fails, `device_read` returns -EFAULT, yet the j bytes copied
before the failure are already consumed (the read cursor advanced past them,
so they are lost to subsequent drains), while the failing byte itself and
everything after it remain buffered. -/
theorem claim_C10 (s : CircState) (count j : Nat) (hs : s.WF) (hj : j < count)
    (hja : j < s.avail) :
    (device_read_loop (fun i => i == j) s count 0).1 = -EFAULT ∧
    (device_read_loop (fun i => i == j) s count 0).2.1 = s.unread.take j ∧
    (device_read_loop (fun i => i == j) s count 0).2.2.unread = s.unread.drop j := by
  have hf := device_read_loop_fault j count s 0 hs (Nat.zero_le j) (by omega) (by omega)
  simp only [Nat.sub_zero] at hf
  rw [hf]
  exact ⟨rfl, rfl, unread_shift s hs j (by omega)⟩

/-- Witness for C10 at a concrete input: three buffered bytes, fault on the
copy of byte number 1. -/
theorem claim_C10_witness :
    (device_read_loop (fun i => i == 1)
        (circ_buffer_write initCirc ['x', 'y', 'z']).1 3 0).1 = -EFAULT ∧
    (device_read_loop (fun i => i == 1)
        (circ_buffer_write initCirc ['x', 'y', 'z']).1 3 0).2.1 =
      (circ_buffer_write initCirc ['x', 'y', 'z']).1.unread.take 1 ∧
    (device_read_loop (fun i => i == 1)
        (circ_buffer_write initCirc ['x', 'y', 'z']).1 3 0).2.2.unread =
      (circ_buffer_write initCirc ['x', 'y', 'z']).1.unread.drop 1 := by
  have hw := circ_buffer_write_spec ['x', 'y', 'z'] initCirc initCirc_WF
  have hav : (circ_buffer_write initCirc ['x', 'y', 'z']).1.avail = 3 := by
    rw [avail_after_write initCirc _ initCirc_WF, hw.2.2.1, avail_initCirc]
    simp [CIRC_BUFFER_SIZE]
  exact claim_C10 (circ_buffer_write initCirc ['x', 'y', 'z']).1 3 1 hw.1 (by omega)
    (by omega)

/-- C1 (code slip): for every all-zero button report the code writes the
bare header entry "Report: ID=<id>, \n" and never "No buttons pressed" —
the `len == 0` fallback of the source is dead code, because the header
`snprintf` has already made `len` positive. -/
theorem claim_C1 (id b1 b2 : Nat) (hid : id < 256) (h1 : b1 < 256) (h2 : b2 < 256)
    (hz1 : b1 &&& 0x7F = 0) (hz2 : b2 &&& 0x0F = 0) :
    mapping_entry id b1 b2 = ("Report: ID=" ++ Nat.repr id ++ ", ") ++ "\n" ∧
    mapping_entry id b1 b2 ≠ "No buttons pressed\n" := by
  have he := mapping_entry_eq id b1 b2 hid h1 h2
  rw [buttonNamesSpec_zero b1 b2 h1 h2 hz1 hz2, String.append_empty] at he
  refine ⟨he, ?_⟩
  intro hcontra
  rw [he] at hcontra
  have hl := congrArg String.length hcontra
  simp only [String.length_append] at hl
  have hr := repr_length_le id hid
  have hh : ("Report: ID=").length = 11 := by decide
  have hc : (", ").length = 2 := by decide
  have hnl : ("\n" : String).length = 1 := by decide
  have hnb : ("No buttons pressed\n" : String).length = 19 := by decide
  omega

/-- Witness for C1 at the failing input: report id 0x31 with both button
bytes zero. -/
theorem claim_C1_witness :
    mapping_entry 0x31 0 0 = ("Report: ID=" ++ Nat.repr 0x31 ++ ", ") ++ "\n" ∧
    mapping_entry 0x31 0 0 ≠ "No buttons pressed\n" :=
  claim_C1 0x31 0 0 (by decide) (by decide) (by decide) (by decide) (by decide)

/-- C2: for all byte values the formatted button entry is the header
"Report: ID=<id>, " followed by exactly the names of the set bits in the
fixed field order, each with its trailing space, then a newline; and the
raw report [0x31, 0x01, 0x00] arriving at the freshly loaded driver leaves
exactly "Report: ID=49, Dpad_Right \n" in the channel. -/
theorem claim_C2 (id b1 b2 : Nat) (hid : id < 256) (h1 : b1 < 256) (h2 : b2 < 256) :
    mapping_entry id b1 b2 =
      (("Report: ID=" ++ Nat.repr id ++ ", ") ++ buttonNamesSpec b1 b2) ++ "\n" ∧
    (wii_raw_event initState [0x31, 0x01, 0x00]).circ.unread =
      "Report: ID=49, Dpad_Right \n".data := by
  refine ⟨mapping_entry_eq id b1 b2 hid h1 h2, ?_⟩
  have hstep : (wii_raw_event initState [0x31, 0x01, 0x00]).circ =
      (circ_buffer_write initCirc (mapping_entry 0x31 0x01 0x00).data).1 := rfl
  have hw := circ_buffer_write_spec (mapping_entry 0x31 0x01 0x00).data initCirc initCirc_WF
  have hmin : min (mapping_entry 0x31 0x01 0x00).data.length
      (CIRC_BUFFER_SIZE - 1 - initCirc.avail) = (mapping_entry 0x31 0x01 0x00).data.length := by
    rw [avail_initCirc]
    decide
  rw [hstep, hw.2.2.2.1, hw.2.2.1, hmin, List.take_length, unread_initCirc, List.nil_append]
  decide

/-- Witness for C2 at a concrete input: id 49, byte1 = 0x01, byte2 = 0. -/
theorem claim_C2_witness :
    mapping_entry 49 1 0 =
      (("Report: ID=" ++ Nat.repr 49 ++ ", ") ++ buttonNamesSpec 1 0) ++ "\n" ∧
    (wii_raw_event initState [0x31, 0x01, 0x00]).circ.unread =
      "Report: ID=49, Dpad_Right \n".data :=
  claim_C2 49 1 0 (by decide) (by decide) (by decide)

/-- C5: a battery report (first byte 0x20, length at least 2) appends the
entry "Battery: <level>\n" to the channel and caches the level in
`wii_last_battery`, leaving the connection flag and the transport handle
untouched, whatever the prior state. -/
theorem claim_C5 (st : DriverState) (data : List Nat) (hlen : 2 ≤ data.length)
    (h0 : data.getD 0 0 = 0x20) (hb : data.getD 1 0 < 256) (hwf : st.circ.WF)
    (hroom : st.circ.avail + 13 ≤ CIRC_BUFFER_SIZE - 1) :
    (wii_raw_event st data).wii_last_battery = ((data.getD 1 0 : Nat) : Int) ∧
    (wii_raw_event st data).wii_connected = st.wii_connected ∧
    (wii_raw_event st data).hid_dev = st.hid_dev ∧
    (wii_raw_event st data).circ.unread =
      st.circ.unread ++ ("Battery: " ++ Nat.repr (data.getD 1 0) ++ "\n").data := by
  have hcond : 0 < data.length ∧ data.getD 0 0 = 0x20 := ⟨by omega, h0⟩
  have hev : wii_raw_event st data =
      { st with
          wii_last_battery := ((data.getD 1 0 : Nat) : Int),
          circ := (circ_buffer_write st.circ
            ("Battery: " ++ Nat.repr (data.getD 1 0) ++ "\n").data).1 } := by
    unfold wii_raw_event
    rw [if_pos hcond, if_pos hlen]
  rw [hev]
  refine ⟨rfl, rfl, rfl, ?_⟩
  have hw := circ_buffer_write_spec
    ("Battery: " ++ Nat.repr (data.getD 1 0) ++ "\n").data st.circ hwf
  have hel : ("Battery: " ++ Nat.repr (data.getD 1 0) ++ "\n").data.length ≤ 13 := by
    have hr := repr_length_le _ hb
    have hq : ("Battery: " ++ Nat.repr (data.getD 1 0) ++ "\n").data.length =
        ("Battery: " ++ Nat.repr (data.getD 1 0) ++ "\n").length := rfl
    rw [hq]
    simp only [String.length_append]
    have hba : ("Battery: ").length = 9 := by decide
    have hnl : ("\n" : String).length = 1 := by decide
    omega
  have hmin : min ("Battery: " ++ Nat.repr (data.getD 1 0) ++ "\n").data.length
      (CIRC_BUFFER_SIZE - 1 - st.circ.avail) =
      ("Battery: " ++ Nat.repr (data.getD 1 0) ++ "\n").data.length := by
    unfold CIRC_BUFFER_SIZE at *
    omega
  rw [hw.2.2.2.1, hw.2.2.1, hmin, List.take_length]

/-- Witness for C5 at the concrete input [0x20, 0x5A] from the freshly
loaded driver: the cached level becomes 90 and the channel holds
"Battery: 90\n". -/
theorem claim_C5_witness :
    (wii_raw_event initState [0x20, 0x5A]).wii_last_battery = 90 ∧
    (wii_raw_event initState [0x20, 0x5A]).circ.unread = "Battery: 90\n".data := by
  have h := claim_C5 initState [0x20, 0x5A] (by decide) (by decide) (by decide)
    initCirc_WF (by decide)
  refine ⟨?_, ?_⟩
  · rw [h.1]
    decide
  · rw [h.2.2.2]
    decide

/-- Transport-handle characterisation: after any sequence of lifecycle
callbacks, the handle is absent exactly when no probe has happened or the
last callback was a remove. -/
theorem runLife_hid (evs : List LifeEvent) :
    (runLife evs).hid_dev = false ↔
      (LifeEvent.attach ∉ evs ∨ evs.getLast? = some LifeEvent.detach) := by
  induction evs using List.reverseRecOn with
  | nil => simp [runLife, initState]
  | append_singleton l e ih =>
    cases e
    · simp [runLife, List.foldl_append, applyLifeEvent, wii_probe, List.getLast?_concat]
    · simp [runLife, List.foldl_append, applyLifeEvent, wii_remove, List.getLast?_concat]

/-- C6: the status-request ioctl returns -ENODEV and hands no frame to the
transport exactly when no handle is retained — that is, exactly when no
probe has occurred or the last lifecycle callback was a remove; when a
handle is retained it hands the transport the fixed 2-byte frame
[0x15, 0x00] and returns whatever the transport send returned. -/
theorem claim_C6 (evs : List LifeEvent) (send_ret : Int) :
    (device_ioctl (runLife evs) WIIMOTE_IOCTL_REQUEST_STATUS send_ret = (-ENODEV, []) ↔
      (LifeEvent.attach ∉ evs ∨ evs.getLast? = some LifeEvent.detach)) ∧
    ((runLife evs).hid_dev = true →
      device_ioctl (runLife evs) WIIMOTE_IOCTL_REQUEST_STATUS send_ret =
        (send_ret, [[0x15, 0x00]])) := by
  constructor
  · rw [← runLife_hid evs]
    unfold device_ioctl
    rw [if_pos rfl]
    cases hh : (runLife evs).hid_dev
    · simp
    · simp
  · intro hh
    unfold device_ioctl
    rw [if_pos rfl, if_pos hh]

/-- Witness for C6 at a concrete input: a single probe, transport send
returning 7. -/
theorem claim_C6_witness :
    (device_ioctl (runLife [LifeEvent.attach]) WIIMOTE_IOCTL_REQUEST_STATUS 7 =
        (-ENODEV, []) ↔
      (LifeEvent.attach ∉ [LifeEvent.attach] ∨
        ([LifeEvent.attach] : List LifeEvent).getLast? = some LifeEvent.detach)) ∧
    ((runLife [LifeEvent.attach]).hid_dev = true →
      device_ioctl (runLife [LifeEvent.attach]) WIIMOTE_IOCTL_REQUEST_STATUS 7 =
        (7, [[0x15, 0x00]])) :=
  claim_C6 [LifeEvent.attach] 7

/-- C8: a report shorter than three bytes whose first byte is not 0x20 is
classified TooShort by the specification decoder, and the driver discards
it: no channel write and no state change at all. -/
theorem claim_C8 (st : DriverState) (data : List Nat) (hlen : data.length < 3)
    (hne : data.getD 0 0 ≠ 0x20) :
    wii_raw_event st data = st ∧ decodeSpec data = DecodedEvent.rejectedTooShort := by
  constructor
  · unfold wii_raw_event
    rw [if_neg (by rintro ⟨h1, h2⟩; exact hne h2)]
    unfold perform_input_mapping
    rw [if_pos hlen]
  · unfold decodeSpec
    rcases Nat.eq_zero_or_pos data.length with h0 | hpos
    · rw [if_pos h0]
    · rw [if_neg (by omega), if_neg (by rintro ⟨h1, h2⟩; exact hne h1), if_pos hlen]

/-- Witness for C8 at a concrete input: the two-byte report [0x31, 0x01]. -/
theorem claim_C8_witness :
    wii_raw_event initState [0x31, 0x01] = initState ∧
    decodeSpec [0x31, 0x01] = DecodedEvent.rejectedTooShort :=
  claim_C8 initState [0x31, 0x01] (by decide) (by decide)

/-- C9: the one-byte report [0x20] (status id but no payload) is classified
TooShort by the specification decoder, and the driver changes nothing: no
channel write and no state change, from any prior state. -/
theorem claim_C9 (st : DriverState) :
    wii_raw_event st [0x20] = st ∧
    decodeSpec [0x20] = DecodedEvent.rejectedTooShort := by
  constructor
  · unfold wii_raw_event
    rw [if_pos (⟨by decide, by decide⟩ : 0 < ([0x20] : List Nat).length ∧
        ([0x20] : List Nat).getD 0 0 = 0x20), if_neg (by decide)]
  · decide

end WiiDriver
